import Mathlib

/-!
# Verification of the window-function segment tree of
# `src/QueryEngine/Utils/SegmentTree.h` and of the input descriptors of
# `src/QueryEngine/Descriptors/InputDescriptors.h`

This file is a shallow embedding of the two C++ source files into Lean.

Modelling conventions:
* `INPUT_TYPE` and `AGG_TYPE` are modelled as mathematical integers `Int`;
  the numeric-limit and null-sentinel values that the template obtains from
  `std::numeric_limits` / `inline_null_value` are carried as explicit fields
  of the context structure `SegCtx`, so theorems quantify over every
  instantiation.  The canonical `int64_t/int64_t` instantiation
  (`inline_null_value<int64_t> = -2^63` etc.) is provided as a concrete
  context builder for evaluation.
* The caller-owned buffers (`input_col_buf_`, `original_input_col_idx_buf_`,
  `ordered_input_col_idx_buf_`) are modelled as total functions, matching the
  fact that a C++ read of any index yields *some* value.
* The flat node buffer `aggregated_values_` / `derived_aggregated_` is
  modelled by explicit state passing: `build` takes the current buffer
  (a function `Nat → Int`, initially the unspecified `malloc` content) and
  returns the updated buffer.  Reads of node slots that were never written
  therefore return the initial "garbage" content, as in C++.
* The recursions of `build` and `search` are depth-bounded in the C++
  executions; the Lean versions take an explicit fuel argument, instantiated
  with `leaf_depth + 1` which is provably sufficient for the real geometry.
* `double` arithmetic in the AVG post-processing of `query` is modelled by
  exact rational arithmetic (`ℚ`); the final result of `query` lives in `ℚ`.
* `int64_t` division truncates towards zero, hence `Int.tdiv` below.
-/

/-- `SqlWindowFunctionKind` restricted to the five aggregate kinds the
segment tree supports (`Shared/sqldefs.h`). -/
inductive AggKind where
  | min : AggKind
  | max : AggKind
  | sum : AggKind
  | count : AggKind
  | avg : AggKind
deriving DecidableEq

/-- The fragment of `SQLTypeInfo` the tree consults: decimal-ness and scale
(used only by the AVG post-processing in `query`). -/
structure SqlTypeInfoM where
  isDecimal : Bool
  scale : Nat
deriving DecidableEq

/-- `SumAndCountPair<AGG_TYPE>` from `SegmentTreeUtils.h`: the node payload
of the derived (AVG) tree. -/
structure SumAndCountPair where
  sum : Int
  count : Int
deriving DecidableEq

/-- The member state of a `SegmentTree<INPUT_TYPE, AGG_TYPE>` instance that
is fixed at construction, together with the numeric limits / null sentinels
of the instantiated element types. -/
structure SegCtx where
  /-- `input_col_buf_` (after the `reinterpret_cast` to `INPUT_TYPE*`). -/
  inputColBuf : Nat → Int
  /-- `input_col_ti_`. -/
  inputColTi : SqlTypeInfoM
  /-- `original_input_col_idx_buf_` (an `int32_t` buffer whose entries are
  used as indices into `input_col_buf_`). -/
  originalIdxBuf : Nat → Nat
  /-- `ordered_input_col_idx_buf_` (an `int64_t` buffer whose entries are
  used as indices into `original_input_col_idx_buf_`). -/
  orderedIdxBuf : Nat → Nat
  /-- `num_elems_`; the constructor `CHECK_GT(num_elems_, 0)` guarantees
  positivity, so a `Nat` with the degenerate value `0` standing for the
  non-positive case. -/
  numElems : Nat
  /-- `fan_out_`. -/
  fanOut : Nat
  /-- `agg_type_`. -/
  aggType : AggKind
  /-- `std::numeric_limits<INPUT_TYPE>::max()`. -/
  inputTypeMax : Int
  /-- `std::numeric_limits<INPUT_TYPE>::min()`. -/
  inputTypeMin : Int
  /-- `std::numeric_limits<AGG_TYPE>::max()` (accumulator start of MIN). -/
  aggTypeMax : Int
  /-- `std::numeric_limits<AGG_TYPE>::min()` (accumulator start of MAX). -/
  aggTypeMin : Int
  /-- `null_val_ = inline_null_value<AGG_TYPE>()`. -/
  nullVal : Int
  /-- `input_type_null_val_ = inline_null_value<INPUT_TYPE>()`. -/
  inputTypeNullVal : Int

/-- `invalid_val_`, as computed by the `SegmentTree` constructor
(lines 69–75): `numeric_limits<INPUT_TYPE>::max()` for MIN,
`numeric_limits<INPUT_TYPE>::min()` for MAX, `0` otherwise. -/
def SegCtx.invalidVal (c : SegCtx) : Int :=
  match c.aggType with
  | .min => c.inputTypeMax
  | .max => c.inputTypeMin
  | _ => 0

/-- Loop body of `SegmentTree::findMaxTreeHeight` (lines 526–538).
`cur` is `cur_level_start_offset`, `ip` is `index_pair`.  The C++ `while
(true)` loop is given explicit fuel; every iteration increases `cur` by
`fanOut ^ depth ≥ 1` (for `fanOut ≥ 1`), so fuel `n + 1` always suffices and
the out-of-fuel branch mirrors the loop exit condition anyway. -/
def fmthLoop (n f : Nat) : Nat → Nat → Nat → Nat × Nat → Nat × (Nat × Nat)
  | 0, depth, _, ip => (depth, ip)
  | fuel + 1, depth, cur, ip =>
    if n < cur then (depth, ip)
    else
      let depth' := depth + 1
      let maximumNodeAtNextLevel := f ^ depth'
      let ip' := (cur, cur + maximumNodeAtNextLevel)
      fmthLoop n f fuel depth' (cur + maximumNodeAtNextLevel) ip'

/-- `SegmentTree::findMaxTreeHeight(num_elem, fan_out)` (lines 522–539):
returns `(depth, leaf_range)`.  `num_elem ≤ 0` is the `Nat` value `0`. -/
def findMaxTreeHeight (n f : Nat) : Nat × (Nat × Nat) :=
  if n = 0 then (0, (0, 0)) else fmthLoop n f (n + 1) 0 1 (0, 0)

/-- `leaf_depth_` as computed by the constructor (line 58). -/
def SegCtx.leafDepth (c : SegCtx) : Nat := (findMaxTreeHeight c.numElems c.fanOut).1

/-- `leaf_range_` as computed by the constructor (line 59). -/
def SegCtx.leafRange (c : SegCtx) : Nat × Nat := (findMaxTreeHeight c.numElems c.fanOut).2

/-- `tree_size_ = leaf_range_.second` (line 66): the number of allocated
node slots. -/
def SegCtx.treeSize (c : SegCtx) : Nat := c.leafRange.2

/-- `leaf_size_ = leaf_range_.second - leaf_range_.first` (line 67). -/
def SegCtx.leafSize (c : SegCtx) : Nat := c.leafRange.2 - c.leafRange.1

/-- `SegmentTree::computeChildIndexes` (lines 504–518): a depth-0 parent has
children `1..fan_out`, a deeper parent `p` has children
`p*fan_out + 1 .. p*fan_out + fan_out`. -/
def computeChildIndexes (fanOut parentIdx parentTreeDepth : Nat) : List Nat :=
  if parentTreeDepth = 0 then
    (List.range fanOut).map (fun i => i + 1)
  else
    (List.range fanOut).map (fun i => parentIdx * fanOut + 1 + i)

/-- `SegmentTree::aggregateValue` (lines 276–319): combine a vector of child
values; a value participates iff it differs from both `null_val_` and
`invalid_val_`; if nothing participates the result is `null_val_`.
The `std::for_each` accumulations are folds carrying `(acc, all_nulls)`. -/
def aggregateValue (c : SegCtx) (vals : List Int) : Int :=
  match c.aggType with
  | .min =>
    let r := vals.foldl
      (fun (st : Int × Bool) v =>
        if v ≠ c.nullVal ∧ v ≠ c.invalidVal then (Min.min st.1 v, false) else st)
      (c.aggTypeMax, true)
    if r.2 then c.nullVal else r.1
  | .max =>
    let r := vals.foldl
      (fun (st : Int × Bool) v =>
        if v ≠ c.nullVal ∧ v ≠ c.invalidVal then (Max.max st.1 v, false) else st)
      (c.aggTypeMin, true)
    if r.2 then c.nullVal else r.1
  | _ =>
    let r := vals.foldl
      (fun (st : Int × Bool) v =>
        if v ≠ c.nullVal ∧ v ≠ c.invalidVal then (st.1 + v, false) else st)
      (0, true)
    if r.2 then c.nullVal else r.1

/-- `SegmentTree::aggregateValueForDerivedAggregate` (lines 367–384):
component-wise combination of `(sum, count)` pairs; a pair participates iff
its `sum` differs from both sentinels. -/
def aggregateValueForDerivedAggregate (c : SegCtx) (vals : List SumAndCountPair) :
    SumAndCountPair :=
  let r := vals.foldl
    (fun (st : SumAndCountPair × Bool) p =>
      if p.sum ≠ c.nullVal ∧ p.sum ≠ c.invalidVal then
        (⟨st.1.sum + p.sum, st.1.count + p.count⟩, false)
      else st)
    (⟨0, 0⟩, true)
  if r.2 then ⟨c.nullVal, 0⟩ else r.1

/-- `SegmentTree::aggregateValueViaColumnAccess` (lines 321–365): aggregate
`num_visits` consecutive slots of the flat node buffer starting at
`cur_col_idx`, with the same participation rule as `aggregateValue`. -/
def aggregateValueViaColumnAccess (c : SegCtx) (buf : Nat → Int)
    (curColIdx numVisits : Nat) : Int :=
  aggregateValue c (((List.range numVisits).map (fun i => buf (curColIdx + i))))

/-- `SegmentTree::aggregateValueForDerivedAggregateViaColumnAccess`
(lines 386–404). -/
def aggregateValueForDerivedAggregateViaColumnAccess (c : SegCtx)
    (buf : Nat → SumAndCountPair) (curColIdx numVisits : Nat) : SumAndCountPair :=
  aggregateValueForDerivedAggregate c
    (((List.range numVisits).map (fun i => buf (curColIdx + i))))

/-- Functional update of a flat node buffer, modelling
`aggregated_values_[i] = v`. -/
def writeBuf (buf : Nat → Int) (i : Nat) (v : Int) : Nat → Int :=
  fun j => if j = i then v else buf j

/-- Functional update of the derived node buffer, modelling
`derived_aggregated_[i] = v`. -/
def writeBufD (buf : Nat → SumAndCountPair) (i : Nat) (v : SumAndCountPair) :
    Nat → SumAndCountPair :=
  fun j => if j = i then v else buf j

/-- The leaf value stored by `SegmentTree::build` (lines 170–196) for the
leaf at `input_col_idx = cur_node_idx - leaf_range_.first`. -/
def buildLeafVal (c : SegCtx) (inputColIdx : Nat) : Int :=
  if c.numElems ≤ inputColIdx then c.invalidVal
  else
    let refinedInputColIdx := c.originalIdxBuf (c.orderedIdxBuf inputColIdx)
    let colVal := c.inputColBuf refinedInputColIdx
    if colVal ≠ c.inputTypeNullVal then
      if c.aggType = .count then 1 else colVal
    else c.nullVal

/-- `SegmentTree::build` (lines 169–208), with the buffer passed as explicit
state and returned together with the node's value.  A node is a leaf iff its
index lies in `leaf_range_` (inclusive).  The child loop is
`prepareChildValuesforAggregation` (lines 239–254): build every child in
order, threading the buffer, and collect the child values.  Fuel bounds the
recursion depth; `leaf_depth_ + 1` is sufficient in every real execution,
and the out-of-fuel result is never reached from the root. -/
def build (c : SegCtx) : Nat → Nat → Nat → (Nat → Int) → ((Nat → Int) × Int)
  | fuel, curNodeIdx, curNodeDepth, buf =>
    if c.leafRange.1 ≤ curNodeIdx ∧ curNodeIdx ≤ c.leafRange.2 then
      let v := buildLeafVal c (curNodeIdx - c.leafRange.1)
      (writeBuf buf curNodeIdx v, v)
    else
      match fuel with
      | 0 => (buf, 0)
      | fuel' + 1 =>
        let res := (computeChildIndexes c.fanOut curNodeIdx curNodeDepth).foldl
          (fun (acc : (Nat → Int) × List Int) i =>
            let r := build c fuel' i (curNodeDepth + 1) acc.1
            (r.1, acc.2 ++ [r.2]))
          (buf, [])
        let v := aggregateValue c res.2
        (writeBuf res.1 curNodeIdx v, v)

/-- The leaf pair stored by `SegmentTree::buildForDerivedAggregate`
(lines 214–228).  Note the source computes `modified_input_col_idx` (reading
both indirection buffers) *before* the padding check — mirrored here. -/
def buildLeafValD (c : SegCtx) (inputColIdx : Nat) : SumAndCountPair :=
  let modifiedInputColIdx := c.originalIdxBuf (c.orderedIdxBuf inputColIdx)
  if c.numElems ≤ inputColIdx then ⟨c.invalidVal, 0⟩
  else
    let colVal := c.inputColBuf modifiedInputColIdx
    if colVal ≠ c.inputTypeNullVal then ⟨colVal, 1⟩ else ⟨c.nullVal, 0⟩

/-- `SegmentTree::buildForDerivedAggregate` (lines 212–236); the child loop
is `prepareChildValuesforDerivedAggregate` (lines 256–273). -/
def buildForDerivedAggregate (c : SegCtx) :
    Nat → Nat → Nat → (Nat → SumAndCountPair) →
    ((Nat → SumAndCountPair) × SumAndCountPair)
  | fuel, curNodeIdx, curNodeDepth, buf =>
    if c.leafRange.1 ≤ curNodeIdx ∧ curNodeIdx ≤ c.leafRange.2 then
      let v := buildLeafValD c (curNodeIdx - c.leafRange.1)
      (writeBufD buf curNodeIdx v, v)
    else
      match fuel with
      | 0 => (buf, ⟨0, 0⟩)
      | fuel' + 1 =>
        let res := (computeChildIndexes c.fanOut curNodeIdx curNodeDepth).foldl
          (fun (acc : (Nat → SumAndCountPair) × List SumAndCountPair) i =>
            let r := buildForDerivedAggregate c fuel' i (curNodeDepth + 1) acc.1
            (r.1, acc.2 ++ [r.2]))
          (buf, [])
        let v := aggregateValueForDerivedAggregate c res.2
        (writeBufD res.1 curNodeIdx v, v)

/-- The list of `(child_search_start_idx, child_search_end_idx)` pairs
produced by the child loop of `SegmentTree::search` (lines 434–451) and of
`searchForDerivedAggregate` (lines 480–494): the first child receives
`(s, pivot)`; each later child starts one past its predecessor's end and
nominally ends at `start + pivot`, clipped to `e`.  `pivot` is the absolute
index `s + (e - s) / fan_out` (`int64_t` division, truncating). -/
def csrLoop (pivot e : Int) : Nat → Int → Int → List (Int × Int)
  | 0, _, _ => []
  | k + 1, cs, ce =>
    (cs, ce) :: csrLoop pivot e k (ce + 1) (min (ce + 1 + pivot) e)

/-- Covered sub-ranges handed to the `fan_out` children in the
partial-overlap case, in child order. -/
def childSearchRanges (fanOut : Nat) (s e : Int) : List (Int × Int) :=
  let pivot := s + (e - s).tdiv fanOut
  csrLoop pivot e fanOut s pivot

/-- `SegmentTree::search` (lines 408–456).  `q` is the query range
(inclusive `int64_t` pair), `s`/`e` are `search_range_start_idx` /
`search_range_end_idx`, `buf` the built node buffer.  The `size_t` cast of
`num_visits` is `Int.toNat` (its argument is `≥ 1` in the reachable partial
branch).  The child loop maps `search` over the child indices zipped with
their covered sub-ranges (lines 441–452).  Fuel bounds the recursion depth
as for `build`. -/
def search (c : SegCtx) (buf : Nat → Int) :
    Nat → Int × Int → Nat → Nat → Int → Int → Int
  | fuel, q, curNodeIdx, curNodeDepth, s, e =>
    if c.numElems = 0 then c.nullVal
    else if e < q.1 ∨ q.2 < s then c.invalidVal
    else if q.1 ≤ s ∧ e ≤ q.2 then buf curNodeIdx
    else if curNodeDepth = c.leafDepth then
      aggregateValueViaColumnAccess c buf curNodeIdx (q.2 - s + 1).toNat
    else
      match fuel with
      | 0 => 0
      | fuel' + 1 =>
        let childIdxs := computeChildIndexes c.fanOut curNodeIdx curNodeDepth
        let childVals := (childIdxs.zip (childSearchRanges c.fanOut s e)).map
          (fun p => search c buf fuel' q p.1 (curNodeDepth + 1) p.2.1 p.2.2)
        aggregateValue c childVals

/-- `SegmentTree::searchForDerivedAggregate` (lines 458–499); identical
range logic over the `SumAndCountPair` buffer (and no `num_elems_` guard). -/
def searchForDerivedAggregate (c : SegCtx) (buf : Nat → SumAndCountPair) :
    Nat → Int × Int → Nat → Nat → Int → Int → SumAndCountPair
  | fuel, q, curNodeIdx, curNodeDepth, s, e =>
    if e < q.1 ∨ q.2 < s then ⟨c.invalidVal, 0⟩
    else if q.1 ≤ s ∧ e ≤ q.2 then buf curNodeIdx
    else if curNodeDepth = c.leafDepth then
      aggregateValueForDerivedAggregateViaColumnAccess c buf curNodeIdx
        (q.2 - s + 1).toNat
    else
      match fuel with
      | 0 => ⟨0, 0⟩
      | fuel' + 1 =>
        let childIdxs := computeChildIndexes c.fanOut curNodeIdx curNodeDepth
        let childVals := (childIdxs.zip (childSearchRanges c.fanOut s e)).map
          (fun p =>
            searchForDerivedAggregate c buf fuel' q p.1 (curNodeDepth + 1) p.2.1 p.2.2)
        aggregateValueForDerivedAggregate c childVals

/-- The node buffer after construction: `build(0, 0)` run on the freshly
allocated buffer whose initial (`malloc`) content is `g`. -/
def segTreeBuf (c : SegCtx) (g : Nat → Int) : Nat → Int :=
  (build c (c.leafDepth + 1) 0 0 g).1

/-- The derived node buffer after construction (AVG case). -/
def segTreeBufD (c : SegCtx) (g : Nat → SumAndCountPair) : Nat → SumAndCountPair :=
  (buildForDerivedAggregate c (c.leafDepth + 1) 0 0 g).1

/-- The malformed-range guard of `SegmentTree::query` (lines 113–116).
The C++ third comparison converts `query_range.second` to `size_t`; on the
`int64_t` domain this is equivalent to the plain comparison written here,
because a negative `second` is already caught by the first two disjuncts. -/
def queryRangeInvalid (c : SegCtx) (qr : Int × Int) : Prop :=
  qr.1 > qr.2 ∨ qr.1 < 0 ∨ qr.2 > (c.leafSize : Int)

instance (c : SegCtx) (qr : Int × Int) : Decidable (queryRangeInvalid c qr) := by
  unfold queryRangeInvalid; infer_instance

/-- `SegmentTree::query` (lines 112–147).  `g` / `gD` are the initial
contents of the freshly allocated node buffers.  The result is the returned
`AGG_TYPE` value; the AVG branch's `double` arithmetic is modelled exactly
in `ℚ`, and scalar results are coerced into `ℚ`. -/
def query (c : SegCtx) (g : Nat → Int) (gD : Nat → SumAndCountPair)
    (qr : Int × Int) : ℚ :=
  if queryRangeInvalid c qr then (c.nullVal : ℚ)
  else if c.aggType = .avg then
    let p := searchForDerivedAggregate c (segTreeBufD c gD) (c.leafDepth + 1)
      qr 0 0 0 (c.leafSize : Int)
    if p.sum = c.nullVal then (c.nullVal : ℚ)
    else if p.count = 0 then 0
    else if c.inputColTi.isDecimal then
      ((p.sum : ℚ) / 10 ^ c.inputColTi.scale) / (p.count : ℚ)
    else (p.sum : ℚ) / (p.count : ℚ)
  else
    let res := search c (segTreeBuf c g) (c.leafDepth + 1) qr 0 0 0 (c.leafSize : Int)
    if res = c.nullVal then
      match c.aggType with
      | .min => (c.inputTypeNullVal : ℚ)
      | .max => (c.inputTypeNullVal : ℚ)
      | _ => (c.nullVal : ℚ)
    else (res : ℚ)

/-- The list of node-buffer indices read by `search`, in read order: nothing
in the degenerate/no-overlap branches, the node itself on full containment,
the `num_visits` scanned slots at leaf depth, and the children's reads
otherwise.  Mirrors `search` exactly (branch conditions do not depend on
buffer values, so neither does the read set). -/
def searchNodeReads (c : SegCtx) :
    Nat → Int × Int → Nat → Nat → Int → Int → List Nat
  | fuel, q, curNodeIdx, curNodeDepth, s, e =>
    if c.numElems = 0 then []
    else if e < q.1 ∨ q.2 < s then []
    else if q.1 ≤ s ∧ e ≤ q.2 then [curNodeIdx]
    else if curNodeDepth = c.leafDepth then
      (List.range (q.2 - s + 1).toNat).map (fun i => curNodeIdx + i)
    else
      match fuel with
      | 0 => []
      | fuel' + 1 =>
        let childIdxs := computeChildIndexes c.fanOut curNodeIdx curNodeDepth
        ((childIdxs.zip (childSearchRanges c.fanOut s e)).map
          (fun p => searchNodeReads c fuel' q p.1 (curNodeDepth + 1) p.2.1 p.2.2)).flatten

/-- Node-buffer indices read by `searchForDerivedAggregate` (same range
logic as `search`, but without the `num_elems_` guard). -/
def searchNodeReadsD (c : SegCtx) :
    Nat → Int × Int → Nat → Nat → Int → Int → List Nat
  | fuel, q, curNodeIdx, curNodeDepth, s, e =>
    if e < q.1 ∨ q.2 < s then []
    else if q.1 ≤ s ∧ e ≤ q.2 then [curNodeIdx]
    else if curNodeDepth = c.leafDepth then
      (List.range (q.2 - s + 1).toNat).map (fun i => curNodeIdx + i)
    else
      match fuel with
      | 0 => []
      | fuel' + 1 =>
        let childIdxs := computeChildIndexes c.fanOut curNodeIdx curNodeDepth
        ((childIdxs.zip (childSearchRanges c.fanOut s e)).map
          (fun p =>
            searchNodeReadsD c fuel' q p.1 (curNodeDepth + 1) p.2.1 p.2.2)).flatten

/-- Node-buffer indices read while answering `query(qr)`: none when the
malformed-range guard fires (the guard precedes every buffer access in the
source), otherwise the reads of the root search of the appropriate kind. -/
def queryNodeReads (c : SegCtx) (qr : Int × Int) : List Nat :=
  if queryRangeInvalid c qr then []
  else if c.aggType = .avg then
    searchNodeReadsD c (c.leafDepth + 1) qr 0 0 0 (c.leafSize : Int)
  else
    searchNodeReads c (c.leafDepth + 1) qr 0 0 0 (c.leafSize : Int)

/-- The positions at which `buildForDerivedAggregate` reads
`ordered_input_col_idx_buf_`.  In the source (lines 214–227) the leaf case
computes `modified_input_col_idx` — reading the ordered-index buffer at
`input_col_idx` — *before* the `input_col_idx >= num_elems_` padding check,
so every leaf slot contributes its position, padding included. -/
def buildDOrderedReads (c : SegCtx) : Nat → Nat → Nat → List Nat
  | fuel, curNodeIdx, curNodeDepth =>
    if c.leafRange.1 ≤ curNodeIdx ∧ curNodeIdx ≤ c.leafRange.2 then
      [curNodeIdx - c.leafRange.1]
    else
      match fuel with
      | 0 => []
      | fuel' + 1 =>
        ((computeChildIndexes c.fanOut curNodeIdx curNodeDepth).map
          (fun i => buildDOrderedReads c fuel' i (curNodeDepth + 1))).flatten

/-- The positions at which the non-derived `build` reads
`ordered_input_col_idx_buf_`: only non-padding leaf slots (the padding check
precedes the read at lines 173–180). -/
def buildOrderedReads (c : SegCtx) : Nat → Nat → Nat → List Nat
  | fuel, curNodeIdx, curNodeDepth =>
    if c.leafRange.1 ≤ curNodeIdx ∧ curNodeIdx ≤ c.leafRange.2 then
      if c.numElems ≤ curNodeIdx - c.leafRange.1 then []
      else [curNodeIdx - c.leafRange.1]
    else
      match fuel with
      | 0 => []
      | fuel' + 1 =>
        ((computeChildIndexes c.fanOut curNodeIdx curNodeDepth).map
          (fun i => buildOrderedReads c fuel' i (curNodeDepth + 1))).flatten

/-- `inline_null_value<int64_t>() = std::numeric_limits<int64_t>::min()`. -/
def int64Min : Int := -(2 ^ 63)

/-- `std::numeric_limits<int64_t>::max()`. -/
def int64Max : Int := 2 ^ 63 - 1

/-- The `SegmentTree<int64_t, int64_t>` instantiation over a column given as
a list of raw values (with `int64Min` as the stored null), identity
indirection buffers, and the given element count, fan-out and kind. -/
def mkInt64Ctx (vals : List Int) (numElems fanOut : Nat) (agg : AggKind)
    (ti : SqlTypeInfoM) : SegCtx where
  inputColBuf := fun i => vals.getD i 0
  inputColTi := ti
  originalIdxBuf := id
  orderedIdxBuf := id
  numElems := numElems
  fanOut := fanOut
  aggType := agg
  inputTypeMax := int64Max
  inputTypeMin := int64Min
  aggTypeMax := int64Max
  aggTypeMin := int64Min
  nullVal := int64Min
  inputTypeNullVal := int64Min

/-- The list of integer positions `a, a+1, …, b` (empty when `a > b`). -/
def rangeL (a b : Int) : List Int :=
  (List.range (b + 1 - a).toNat).map (fun i : Nat => a + (i : Int))

/-- Spec-side reference for the build/query-consistency claims (spec §8
"Build/query consistency", combination rule of §4.3, post-processing of
§4.4): linearly scan the resolved leaf values at positions `lo..hi`
(padding slots beyond `elementCount` contribute the invalid sentinel),
apply the aggregate's combination rule directly, and post-process the
top-level result exactly as `query` does. -/
def specLinearScanResult (c : SegCtx) (lo hi : Int) : ℚ :=
  if c.aggType = .avg then
    let pairs := (rangeL lo hi).map (fun i => buildLeafValD c i.toNat)
    let p := aggregateValueForDerivedAggregate c pairs
    if p.sum = c.nullVal then (c.nullVal : ℚ)
    else if p.count = 0 then 0
    else if c.inputColTi.isDecimal then
      ((p.sum : ℚ) / 10 ^ c.inputColTi.scale) / (p.count : ℚ)
    else (p.sum : ℚ) / (p.count : ℚ)
  else
    let vals := (rangeL lo hi).map (fun i => buildLeafVal c i.toNat)
    let res := aggregateValue c vals
    if res = c.nullVal then
      match c.aggType with
      | .min => (c.inputTypeNullVal : ℚ)
      | .max => (c.inputTypeNullVal : ℚ)
      | _ => (c.nullVal : ℚ)
    else (res : ℚ)

/-- Spec-side reading of the partial-overlap partition (claim C7): pivot at
`s + (e - s)/fanOut`; the first child takes `[s, pivot]`, successive
children take successive slices of the same width `pivot - s + 1`, and the
last child's slice is clipped to `e`. -/
def specChildSlices (fanOut : Nat) (s e : Int) : List (Int × Int) :=
  let pivot := s + (e - s).tdiv fanOut
  let w := pivot - s + 1
  (List.range fanOut).map (fun i =>
    (s + i * w, if i = fanOut - 1 then min (s + (i + 1) * w - 1) e
                else s + (i + 1) * w - 1))

/-- Number of nodes of the complete `f`-ary tree of depth `d`
(`1 + f + … + f^d`). -/
def completeTreeNodeCount (f d : Nat) : Nat := ∑ i in Finset.range (d + 1), f ^ i

/-- All-zero initial (`malloc`) content for the scalar node buffer. -/
def zeroG : Nat → Int := fun _ => 0

/-- All-zero initial content for the derived node buffer. -/
def zeroGD : Nat → SumAndCountPair := fun _ => ⟨0, 0⟩

/-- The concrete scenario of spec §8: values `[1, null, 3, 4, null, 6, 7]`,
element count 7, fan-out 2, identity indirection (claims C1/C3). -/
def scenarioVals : List Int := [1, int64Min, 3, 4, int64Min, 6, 7]

/-- SUM tree over the concrete scenario. -/
def scenarioSumCtx : SegCtx := mkInt64Ctx scenarioVals 7 2 .sum ⟨false, 0⟩

/-- COUNT tree over the concrete scenario. -/
def scenarioCountCtx : SegCtx := mkInt64Ctx scenarioVals 7 2 .count ⟨false, 0⟩

/-- COUNT tree over a two-element all-null partition (claim C4). -/
def allNullCountCtx : SegCtx := mkInt64Ctx [int64Min, int64Min] 2 2 .count ⟨false, 0⟩

/-- AVG tree over a single-element partition (claim C9): its leaf level has
two slots, so slot 1 is padding. -/
def oneElemAvgCtx : SegCtx := mkInt64Ctx [5] 1 2 .avg ⟨false, 0⟩

/-- MIN tree over a single-element partition (claim C9). -/
def oneElemMinCtx : SegCtx := mkInt64Ctx [5] 1 2 .min ⟨false, 0⟩

/-- `static_cast<size_t>(x)` for a (signed) integer `x`: reduction modulo
`2^64`. -/
def castSizeT (x : Int) : Nat := (x.emod (2 ^ 64)).toNat

/-- `InputDescriptor` (`InputDescriptors.h` lines 28–59): a table id and a
nesting level (`int` fields). -/
structure InputDescriptor where
  tableId : Int
  nestLevel : Int
deriving DecidableEq

/-- `InputDescriptor::operator==` (lines 33–35). -/
def inputDescriptorEq (a b : InputDescriptor) : Bool :=
  a.tableId == b.tableId && a.nestLevel == b.nestLevel

/-- `InputDescriptor::hash` (lines 45–49):
`size_t(table_id) << 8*sizeof(int) | size_t(nest_level)` — the shift by 32
is a multiplication truncated to 64 bits, combined with bitwise or. -/
def inputDescriptorHash (a : InputDescriptor) : Nat :=
  (castSizeT a.tableId * 2 ^ 32) % 2 ^ 64 ||| castSizeT a.nestLevel

/-- `InputColDescriptor` (lines 66–91): a column id plus the nested
`InputDescriptor`. -/
structure InputColDescriptor where
  colId : Int
  inputDesc : InputDescriptor
deriving DecidableEq

/-- `InputColDescriptor::operator==` (lines 71–73). -/
def inputColDescriptorEq (a b : InputColDescriptor) : Bool :=
  a.colId == b.colId && inputDescriptorEq a.inputDesc b.inputDesc

/-- `InputColDescriptor::hash` (lines 79–81):
`input_desc_.hash() ^ (size_t(col_id) << 16)`. -/
def inputColDescriptorHash (a : InputColDescriptor) : Nat :=
  Nat.xor (inputDescriptorHash a.inputDesc) ((castSizeT a.colId * 2 ^ 16) % 2 ^ 64)

/-- SUM tree over a five-element partition with fan-out 2 (claim C2): the
shape computation allots only four leaf slots. -/
def fiveElemCtx : SegCtx := mkInt64Ctx [1, 2, 3, 4, 5] 5 2 .sum ⟨false, 0⟩

/-- AVG tree over a two-element decimal column of scale 1 (claim C6
witness). -/
def decimalAvgCtx : SegCtx := mkInt64Ctx [15, 25] 2 2 .avg ⟨true, 1⟩

/-- SUM tree over a thirteen-element partition with fan-out 3 (claim C7):
its leaf level has 27 slots, and the root's partial-overlap partition hands
covered range `[10, 19]` to the middle child. -/
def thirteenElemCtx : SegCtx :=
  mkInt64Ctx [1, 2, 3, 4, 5, 6, 7, 8, 9, 10, 11, 12, 13] 13 3 .sum ⟨false, 0⟩

/-- A concrete `InputDescriptor` for the C10 witness. -/
def sampleInputDesc : InputDescriptor := ⟨3, 1⟩

/-- A concrete `InputColDescriptor` for the C10 witness. -/
def sampleInputColDesc : InputColDescriptor := ⟨2, ⟨3, 1⟩⟩

/-- C1 (build/query consistency fails on the code): on the spec's own
concrete scenario (SUM over `[1, null, 3, 4, null, 6, 7]`, element count 7,
fan-out 2, identity indirection), `query([0, 6])` returns 14, while the
linear scan of the resolved leaf values at positions 0..6 under the
aggregate's combination rule yields 21: the range search's covered-range
bookkeeping is misaligned with the leaf slots actually aggregated by
`build`. -/
theorem segtree_C1_query_ne_linear_scan :
    query scenarioSumCtx zeroG zeroGD (0, 6) = 14 ∧
    specLinearScanResult scenarioSumCtx 0 6 = 21 ∧
    query scenarioSumCtx zeroG zeroGD (0, 6) ≠ specLinearScanResult scenarioSumCtx 0 6 := by
  refine ⟨by decide, by decide, by decide⟩

/-- C2 (tree shape fails on the code): for element count 5 and fan-out 2,
`findMaxTreeHeight` stops as soon as the *cumulative node count* exceeds the
element count, returning depth 2 with leaf range `[3, 7)` — only
`leafSize = 4 < 5` leaf slots, so the tree cannot hold all five elements
(the claimed `leafSize ≥ elementCount` fails). -/
theorem segtree_C2_leaf_capacity_lt_element_count :
    findMaxTreeHeight 5 2 = (2, (3, 7)) ∧
    fiveElemCtx.leafSize = 4 ∧
    ¬ fiveElemCtx.numElems ≤ fiveElemCtx.leafSize := by
  refine ⟨by decide, by decide, by decide⟩

/-- C3 (the spec's concrete scenario fails on the code): with the SUM tree
over `[1, null, 3, 4, null, 6, 7]` (element count 7, fan-out 2, identity
indirection), `query([0,6]) = 14` (claimed 21), `query([1,1]) = 1` (claimed
the null sentinel), `query([0,1]) = 1` (as claimed), and the COUNT tree over
the same values yields `query([0,6]) = 4` (claimed 5). -/
theorem segtree_C3_concrete_scenario :
    query scenarioSumCtx zeroG zeroGD (0, 6) ≠ 21 ∧
    query scenarioSumCtx zeroG zeroGD (1, 1) = 1 ∧
    query scenarioSumCtx zeroG zeroGD (1, 1) ≠ (int64Min : ℚ) ∧
    query scenarioSumCtx zeroG zeroGD (0, 1) = 1 ∧
    query scenarioCountCtx zeroG zeroGD (0, 6) = 4 ∧
    query scenarioCountCtx zeroG zeroGD (0, 6) ≠ 5 := by
  refine ⟨by decide, by decide, by decide, by decide, by decide, by decide⟩

/-- C4 (the all-null COUNT case fails on the code): over the two-element
all-null partition with fan-out 2, the in-bounds query `[1, 1]` on the
COUNT tree returns the accumulator null sentinel `-2^63`, not the claimed
`0`: `query` re-maps a null search result only for MIN/MAX and returns
`null_val_` unchanged for COUNT (lines 136–144). -/
theorem segtree_C4_count_all_null_not_zero :
    ¬ queryRangeInvalid allNullCountCtx (1, 1) ∧
    query allNullCountCtx zeroG zeroGD (1, 1) = (int64Min : ℚ) ∧
    (int64Min : ℚ) ≠ 0 := by
  refine ⟨by decide, by decide, by decide⟩

/-- C9 (construction/query buffer accesses are not bounded as claimed):
for the AVG tree over a single-element partition with fan-out 2,
`buildForDerivedAggregate` reads `ordered_input_col_idx_buf_` at positions
`[0, 1]` — position 1 is a padding slot `≥ elementCount = 1` (the source
resolves the indirection *before* the padding check); and for the MIN tree
over the same partition, the in-bounds query `[1, 2]` reads node-buffer
indices `[1, 2, 3, 2]`, where index 3 is outside the allocated
`tree_size_ = 3` slots. -/
theorem segtree_C9_out_of_bounds_reads :
    buildDOrderedReads oneElemAvgCtx (oneElemAvgCtx.leafDepth + 1) 0 0 = [0, 1] ∧
    oneElemAvgCtx.numElems = 1 ∧
    ¬ queryRangeInvalid oneElemMinCtx (1, 2) ∧
    queryNodeReads oneElemMinCtx (1, 2) = [1, 2, 3, 2] ∧
    oneElemMinCtx.treeSize = 3 := by
  refine ⟨by decide, by decide, by decide, by decide, by decide⟩

/-- C5: for every query range violating the precondition (`lo > hi`,
`lo < 0` or `hi > leafSize`), `query` returns the aggregate's null sentinel
immediately and reads no node-buffer slot, for every aggregate kind (the
guard at lines 113–116 precedes every buffer access; `search` — which alone
touches buffers during a query — is never entered). -/
theorem segtree_C5_invalid_range_null (c : SegCtx) (g : Nat → Int)
    (gD : Nat → SumAndCountPair) (qr : Int × Int)
    (h : qr.1 > qr.2 ∨ qr.1 < 0 ∨ qr.2 > (c.leafSize : Int)) :
    query c g gD qr = (c.nullVal : ℚ) ∧ queryNodeReads c qr = [] := by
  have h' : queryRangeInvalid c qr := h
  unfold query queryNodeReads
  rw [if_pos h', if_pos h']
  exact ⟨rfl, rfl⟩

/-- Witness for C5 at a concrete invalid range (`lo > hi`). -/
theorem segtree_C5_invalid_range_null_witness :
    ((2 : Int) > 1 ∨ (2 : Int) < 0 ∨ (1 : Int) > (oneElemMinCtx.leafSize : Int)) ∧
    (query oneElemMinCtx zeroG zeroGD (2, 1) = (oneElemMinCtx.nullVal : ℚ) ∧
      queryNodeReads oneElemMinCtx (2, 1) = []) :=
  ⟨by decide,
    segtree_C5_invalid_range_null oneElemMinCtx zeroG zeroGD (2, 1) (by decide)⟩

/-- C6: for every AVG tree and every query range passing the precondition,
the top-level result is computed from the `(sum, count)` pair returned by
`searchForDerivedAggregate` as: null if the sum is the null sentinel, `0` if
the count is zero, and otherwise the sum — descaled by `10^scale` when the
input column is a fixed-point decimal of scale `s` — divided by the count
(lines 118–133; `double` arithmetic modelled exactly in `ℚ`). -/
theorem segtree_C6_avg_post_processing (c : SegCtx) (g : Nat → Int)
    (gD : Nat → SumAndCountPair) (qr : Int × Int) (hk : c.aggType = .avg)
    (h : ¬(qr.1 > qr.2 ∨ qr.1 < 0 ∨ qr.2 > (c.leafSize : Int))) :
    query c g gD qr =
      (let p := searchForDerivedAggregate c (segTreeBufD c gD) (c.leafDepth + 1)
        qr 0 0 0 (c.leafSize : Int)
      if p.sum = c.nullVal then (c.nullVal : ℚ)
      else if p.count = 0 then 0
      else if c.inputColTi.isDecimal then
        ((p.sum : ℚ) / 10 ^ c.inputColTi.scale) / (p.count : ℚ)
      else (p.sum : ℚ) / (p.count : ℚ)) := by
  have h' : ¬ queryRangeInvalid c qr := h
  unfold query
  rw [if_neg h', if_pos hk]

/-- Witness for C6: the AVG tree over the raw decimal values `[15, 25]`
(scale 1) at the range `[1, 2]`. -/
theorem segtree_C6_avg_post_processing_witness :
    decimalAvgCtx.aggType = .avg ∧
    ¬((1 : Int) > 2 ∨ (1 : Int) < 0 ∨ (2 : Int) > (decimalAvgCtx.leafSize : Int)) ∧
    query decimalAvgCtx zeroG zeroGD (1, 2) =
      (let p := searchForDerivedAggregate decimalAvgCtx
        (segTreeBufD decimalAvgCtx zeroGD) (decimalAvgCtx.leafDepth + 1)
        (1, 2) 0 0 0 (decimalAvgCtx.leafSize : Int)
      if p.sum = decimalAvgCtx.nullVal then (decimalAvgCtx.nullVal : ℚ)
      else if p.count = 0 then 0
      else if decimalAvgCtx.inputColTi.isDecimal then
        ((p.sum : ℚ) / 10 ^ decimalAvgCtx.inputColTi.scale) / (p.count : ℚ)
      else (p.sum : ℚ) / (p.count : ℚ)) :=
  ⟨rfl, by decide,
    segtree_C6_avg_post_processing decimalAvgCtx zeroG zeroGD (1, 2) rfl (by decide)⟩

/-- C10: `InputDescriptor` equality holds exactly when `table_id` and
`nest_level` agree componentwise, `InputColDescriptor` equality holds
exactly when `col_id` and the contained `InputDescriptor` agree, and both
hashes are functions of those same components, so equal descriptors have
equal hashes (sound for use as map keys). -/
theorem descriptors_C10_eq_and_hash :
    ∀ (a b : InputDescriptor) (p q : InputColDescriptor),
      (inputDescriptorEq a b = true ↔
        a.tableId = b.tableId ∧ a.nestLevel = b.nestLevel) ∧
      (inputColDescriptorEq p q = true ↔
        p.colId = q.colId ∧ p.inputDesc = q.inputDesc) ∧
      (inputDescriptorEq a b = true →
        inputDescriptorHash a = inputDescriptorHash b) ∧
      (inputColDescriptorEq p q = true →
        inputColDescriptorHash p = inputColDescriptorHash q) := by
  intro a b p q
  obtain ⟨at1, an1⟩ := a
  obtain ⟨bt1, bn1⟩ := b
  obtain ⟨pc1, ⟨pt1, pn1⟩⟩ := p
  obtain ⟨qc1, ⟨qt1, qn1⟩⟩ := q
  refine ⟨?_, ?_, ?_, ?_⟩
  · simp [inputDescriptorEq, Bool.and_eq_true, beq_iff_eq]
  · simp [inputColDescriptorEq, inputDescriptorEq, Bool.and_eq_true, beq_iff_eq,
      InputDescriptor.mk.injEq]
  · intro h
    simp only [inputDescriptorEq, Bool.and_eq_true, beq_iff_eq] at h
    simp [inputDescriptorHash, h.1, h.2]
  · intro h
    simp only [inputColDescriptorEq, inputDescriptorEq, Bool.and_eq_true,
      beq_iff_eq] at h
    simp [inputColDescriptorHash, inputDescriptorHash, h.1, h.2.1, h.2.2]

/-- Witness for C10: the hash-coincidence conclusions at a concrete pair of
equal descriptors. -/
theorem descriptors_C10_eq_and_hash_witness :
    inputDescriptorEq sampleInputDesc sampleInputDesc = true ∧
    inputDescriptorHash sampleInputDesc = inputDescriptorHash sampleInputDesc ∧
    inputColDescriptorHash sampleInputColDesc = inputColDescriptorHash sampleInputColDesc :=
  ⟨by decide,
    (descriptors_C10_eq_and_hash sampleInputDesc sampleInputDesc
      sampleInputColDesc sampleInputColDesc).2.2.1 (by decide),
    (descriptors_C10_eq_and_hash sampleInputDesc sampleInputDesc
      sampleInputColDesc sampleInputColDesc).2.2.2 (by decide)⟩

/-- Two adjacent position ranges concatenate to one range. -/
theorem rangeL_append (a b c : Int) (h1 : a ≤ b + 1) (h2 : b ≤ c) :
    rangeL a b ++ rangeL (b + 1) c = rangeL a c := by
  unfold rangeL
  have hb1 : (0 : Int) ≤ b + 1 - a := by omega
  have hsum : (c + 1 - a).toNat = (b + 1 - a).toNat + (c - b).toNat := by omega
  have hcb : c + 1 - (b + 1) = c - b := by ring
  rw [hcb, hsum, List.range_add, List.map_append, List.map_map]
  congr 1
  apply List.map_congr_left
  intro i _
  simp only [Function.comp_apply]
  push_cast
  omega

/-- The covered sub-ranges produced by the child loop tile `[cs, e]` exactly,
provided the remaining child count can reach `e` (each step advances the end
by at least `pivot + 1` until the clip to `e` applies). -/
theorem csrLoop_tiling (pivot e : Int) (hp : 0 ≤ pivot) :
    ∀ (k : Nat) (cs ce : Int), cs ≤ ce + 1 → ce ≤ e → e ≤ ce + k * (pivot + 1) →
      (csrLoop pivot e (k + 1) cs ce).flatMap (fun p => rangeL p.1 p.2) =
        rangeL cs e := by
  intro k
  induction k with
  | zero =>
    intro cs ce h1 h2 h3
    have hce : ce = e := by omega
    subst hce
    simp [csrLoop]
  | succ k ih =>
    intro cs ce h1 h2 h3
    have hstep : (csrLoop pivot e (k + 1 + 1) cs ce) =
        (cs, ce) :: csrLoop pivot e (k + 1) (ce + 1) (min (ce + 1 + pivot) e) := rfl
    rw [hstep, List.flatMap_cons]
    rw [ih (ce + 1) (min (ce + 1 + pivot) e) (by omega) (by omega) (by
      rcases le_total (ce + 1 + pivot) e with h | h
      · rw [min_eq_left h]
        push_cast at h3 ⊢
        have hlink : ((k : Int) + 1) * (pivot + 1) = (k : Int) * (pivot + 1) + pivot + 1 := by
          ring
        omega
      · rw [min_eq_right h]
        have hknn : (0 : Int) ≤ ((k : Nat) : Int) * (pivot + 1) :=
          mul_nonneg (by positivity) (by omega)
        omega)]
    exact rangeL_append cs ce e h1 h2

/-- The child loop always emits exactly `k` covered sub-ranges. -/
theorem csrLoop_length (pivot e : Int) :
    ∀ (k : Nat) (cs ce : Int), (csrLoop pivot e k cs ce).length = k := by
  intro k
  induction k with
  | zero => intro cs ce; rfl
  | succ k ih => intro cs ce; simp [csrLoop, ih]

/-- Division bounds for the truncating `int64_t` division on non-negative
numerators. -/
theorem tdiv_bounds (a : Int) (f : Nat) (ha : 0 ≤ a) (hf : 0 < f) :
    (f : Int) * (a.tdiv f) ≤ a ∧ a < (f : Int) * (a.tdiv f) + f := by
  have hf' : (0 : Int) < (f : Int) := by exact_mod_cast hf
  rw [Int.tdiv_eq_ediv ha (le_of_lt hf')]
  have hdm := Int.ediv_add_emod a (f : Int)
  have hm1 := Int.emod_nonneg a (ne_of_gt hf')
  have hm2 := Int.emod_lt_of_pos a hf'
  omega

/-- C7 (the claimed equal-width partition fails on the code): at the covered
range `[10, 19]` with fan-out 3 — precisely the covered range the root hands
its middle child for the 13-element fan-out-3 tree, whose leaf level spans
`[0, 27]` — the code's child loop produces `[(10,13), (14,19), (20,19)]`
(the second child's nominal end `start + pivot` reuses the absolute pivot
index 13, and the clip to the covered end applies to every child), while the
claimed successive equal-width slices are `[(10,13), (14,17), (18,19)]`. -/
theorem segtree_C7_unequal_slices :
    childSearchRanges 3 10 19 = [(10, 13), (14, 19), (20, 19)] ∧
    specChildSlices 3 10 19 = [(10, 13), (14, 17), (18, 19)] ∧
    childSearchRanges 3 10 19 ≠ specChildSlices 3 10 19 ∧
    childSearchRanges 3 0 27 = [(0, 9), (10, 19), (20, 27)] ∧
    thirteenElemCtx.leafSize = 27 := by
  refine ⟨by decide, by decide, by decide, by decide, by decide⟩

/-- C7 amended: in the partial-overlap case at a non-leaf depth the pivot is
`coveredStart + (coveredEnd - coveredStart)/fanOut`; the first child
receives `[coveredStart, pivot]`, each subsequent child starts one past its
predecessor's end and nominally ends at `start + pivot` (so the slices are
*not* of equal width when `coveredStart > 0`), every end is clipped to
`coveredEnd`, and the `fanOut` child sub-ranges still tile
`[coveredStart, coveredEnd]` exactly (trailing children may receive empty
ranges). -/
theorem segtree_C7_amended_partition_tiles (f : Nat) (s e : Int) (hf : 2 ≤ f)
    (hs : 0 ≤ s) (hse : s ≤ e) :
    (childSearchRanges f s e).flatMap (fun p => rangeL p.1 p.2) = rangeL s e ∧
    (childSearchRanges f s e).head? = some (s, s + (e - s).tdiv f) ∧
    (childSearchRanges f s e).length = f := by
  obtain ⟨k, rfl⟩ : ∃ k, f = k + 2 := ⟨f - 2, by omega⟩
  unfold childSearchRanges
  obtain ⟨hd1, hd2⟩ := tdiv_bounds (e - s) (k + 2) (by omega) (by omega)
  set w := (e - s).tdiv (((k + 2 : Nat)) : Int) with hwdef
  have hwnn : 0 ≤ w := Int.tdiv_nonneg (by omega) (by positivity)
  have hk0 : (0 : Int) ≤ (k : Int) := by positivity
  refine ⟨?_, rfl, by rw [show (k + 2 : Nat) = (k + 1) + 1 from rfl, csrLoop_length]⟩
  rw [show (k + 2 : Nat) = (k + 1) + 1 from rfl]
  rw [csrLoop_tiling (s + w) e (by omega) (k + 1) s (s + w) (by omega)
    (by push_cast at hd1 ⊢; nlinarith) (by push_cast at hd2 ⊢; nlinarith)]

/-- Witness for the amended C7 at fan-out 2 over the root covered range of
the concrete scenario's tree. -/
theorem segtree_C7_amended_partition_tiles_witness :
    (2 ≤ 2 ∧ (0 : Int) ≤ 0 ∧ (0 : Int) ≤ 8) ∧
    ((childSearchRanges 2 0 8).flatMap (fun p => rangeL p.1 p.2) = rangeL 0 8 ∧
      (childSearchRanges 2 0 8).head? = some (0, 0 + (8 - 0 : Int).tdiv 2) ∧
      (childSearchRanges 2 0 8).length = 2) :=
  ⟨⟨le_refl 2, le_refl 0, by omega⟩,
    segtree_C7_amended_partition_tiles 2 0 8 (le_refl 2) (le_refl 0) (by omega)⟩

/-- The `findMaxTreeHeight` loop, entered with `cur` equal to the node count
of the complete tree of the current depth, returns some depth `d ≥ 1`
together with the leaf range `(count(d-1), count(d))`. -/
theorem fmthLoop_char (n f : Nat) (hn : 1 ≤ n) (hf : 1 ≤ f) :
    ∀ (fuel depth cur : Nat) (ip : Nat × Nat),
      cur = completeTreeNodeCount f depth →
      (1 ≤ depth →
        ip = (completeTreeNodeCount f (depth - 1), completeTreeNodeCount f depth)) →
      n < cur + fuel →
      ∃ d, 1 ≤ d ∧
        fmthLoop n f fuel depth cur ip =
          (d, (completeTreeNodeCount f (d - 1), completeTreeNodeCount f d)) := by
  intro fuel
  induction fuel with
  | zero =>
    intro depth cur ip hcur hip hlt
    have hd1 : 1 ≤ depth := by
      by_contra hd
      have : depth = 0 := by omega
      subst this
      simp [completeTreeNodeCount] at hcur
      omega
    exact ⟨depth, hd1, by rw [fmthLoop, hip hd1]⟩
  | succ fuel ih =>
    intro depth cur ip hcur hip hlt
    rw [fmthLoop]
    by_cases h : n < cur
    · rw [if_pos h]
      have hd1 : 1 ≤ depth := by
        by_contra hd
        have : depth = 0 := by omega
        subst this
        simp [completeTreeNodeCount] at hcur
        omega
      exact ⟨depth, hd1, by rw [hip hd1]⟩
    · rw [if_neg h]
      have hpow : 1 ≤ f ^ (depth + 1) := Nat.one_le_pow _ _ (by omega)
      refine ih (depth + 1) (cur + f ^ (depth + 1)) _ ?_ ?_ (by omega)
      · rw [hcur]
        simp [completeTreeNodeCount, Finset.sum_range_succ]
      · intro _
        simp only [Nat.add_sub_cancel]
        rw [hcur]
        simp [completeTreeNodeCount, Finset.sum_range_succ]

/-- For positive element count and fan-out, `findMaxTreeHeight` returns a
depth `d ≥ 1` and the leaf range `(count(d-1), count(d))`, where `count(k)`
is the node count of the complete fan-out-ary tree of depth `k`. -/
theorem findMaxTreeHeight_char (n f : Nat) (hn : 1 ≤ n) (hf : 1 ≤ f) :
    ∃ d, 1 ≤ d ∧
      findMaxTreeHeight n f =
        (d, (completeTreeNodeCount f (d - 1), completeTreeNodeCount f d)) := by
  unfold findMaxTreeHeight
  rw [if_neg (by omega)]
  exact fmthLoop_char n f hn hf (n + 1) 0 1 (0, 0)
    (by simp [completeTreeNodeCount]) (by omega) (by omega)

/-- C8 (the claimed off-by-one relation fails on the code): for the concrete
scenario tree (element count 7, fan-out 2) the allocated node count
`tree_size_` is 15 and `leafEnd = 15` as well — `leafEnd` equals the total
node count itself, not the total node count *minus one*. -/
theorem segtree_C8_leaf_end_eq_tree_size :
    scenarioSumCtx.treeSize = 15 ∧
    scenarioSumCtx.leafRange.2 = 15 ∧
    scenarioSumCtx.leafRange.2 ≠ scenarioSumCtx.treeSize - 1 := by
  refine ⟨by decide, by decide, by decide⟩

/-- C8 amended: for every tree with positive element count and fan-out,
`leafEnd` equals the allocated node count `tree_size_` exactly (line 66),
and that count is the node count `1 + f + … + f^leafDepth` of the complete
fan-out-ary tree of depth `leafDepth` — the buffer holds exactly the nodes
of that complete tree (which, per C2, does *not* always have at least
`elementCount` leaves).  `leaf_range_` is computed once in the constructor
and `query`/`search` are read-only (`const`), modelled here as pure
functions of the immutable context, so the relation persists across
queries. -/
theorem segtree_C8_amended_leaf_end_node_count (c : SegCtx)
    (hn : 1 ≤ c.numElems) (hf : 1 ≤ c.fanOut) :
    c.treeSize = c.leafRange.2 ∧
    c.leafRange.2 = completeTreeNodeCount c.fanOut c.leafDepth := by
  obtain ⟨d, hd1, hd2⟩ := findMaxTreeHeight_char c.numElems c.fanOut hn hf
  refine ⟨rfl, ?_⟩
  unfold SegCtx.leafRange SegCtx.leafDepth
  rw [hd2]

/-- Witness for the amended C8 at the concrete scenario tree. -/
theorem segtree_C8_amended_leaf_end_node_count_witness :
    (1 ≤ scenarioCountCtx.numElems ∧ 1 ≤ scenarioCountCtx.fanOut) ∧
    (scenarioCountCtx.treeSize = scenarioCountCtx.leafRange.2 ∧
      scenarioCountCtx.leafRange.2 =
        completeTreeNodeCount scenarioCountCtx.fanOut scenarioCountCtx.leafDepth) :=
  ⟨⟨by decide, by decide⟩,
    segtree_C8_amended_leaf_end_node_count scenarioCountCtx (by decide) (by decide)⟩
